import Mathlib

/-!
Verification development for the `backend/rag_service.py` crawling-and-extraction
pipeline and its ingestion/query orchestration.

The Python code is shallowly embedded: pure computations become Lean functions,
the crawl loop becomes a recursive function over an explicit `CrawlState`, the
network and the external retrieval/generation engine become oracles passed as
function parameters.  External library calls (HTTP fetching, HTML parsing by
BeautifulSoup, `urllib.parse.urljoin`) are modelled at their interfaces; all
logic of the repository itself (thresholds, filtering conditions, state
updates) is translated from `rag_service.py` line by line.
-/

set_option autoImplicit false
set_option maxRecDepth 100000

namespace RAG

/-! ## String helpers modelling Python primitives -/

/-- Model of list-of-chars prefix comparison (used to search for substrings). -/
def listPrefixEq : List Char → List Char → Bool
  | [], _ => true
  | _ :: _, [] => false
  | a :: as, b :: bs => a == b && listPrefixEq as bs

def strContainsAux (needle : List Char) : List Char → Bool
  | [] => listPrefixEq needle []
  | c :: rest => listPrefixEq needle (c :: rest) || strContainsAux needle rest

/-- Model of Python substring search (`needle in hay`, `re.search` of a literal
pattern such as `/langgraph/`). -/
def strContains (hay needle : String) : Bool :=
  strContainsAux needle.data hay.data

/-- Model of Python `str.startswith`. -/
def pyStartsWith (s pre : String) : Bool :=
  listPrefixEq pre.data s.data

/-- Splitting scan: `skip` counts separator characters still to be consumed
after a match, `acc` holds the current piece reversed. -/
def pySplitAux (sep : List Char) : List Char → Nat → List Char → List (List Char)
  | [], _, acc => [acc.reverse]
  | _ :: rest, skip + 1, acc => pySplitAux sep rest skip acc
  | c :: rest, 0, acc =>
    if listPrefixEq sep (c :: rest) then
      acc.reverse :: pySplitAux sep rest (sep.length - 1) []
    else
      pySplitAux sep rest 0 (c :: acc)

/-- Model of Python `str.split(sep)` for a non-empty separator. -/
def pySplit (s sep : String) : List String :=
  (pySplitAux sep.data s.data 0 []).map String.mk

/-- Replacement scan for `pyReplace`, with the same `skip` device. -/
def pyReplaceAux (pat repl : List Char) : List Char → Nat → List Char
  | [], _ => []
  | _ :: rest, skip + 1 => pyReplaceAux pat repl rest skip
  | c :: rest, 0 =>
    if listPrefixEq pat (c :: rest) then repl ++ pyReplaceAux pat repl rest (pat.length - 1)
    else c :: pyReplaceAux pat repl rest 0

/-- Model of Python `str.replace` for a non-empty pattern: replace every
non-overlapping occurrence, left to right. -/
def pyReplace (s pat repl : String) : String :=
  String.mk (pyReplaceAux pat.data repl.data s.data 0)

/-- Model of Python `str.strip()`: drop leading and trailing whitespace. -/
def pyStrip (s : String) : String :=
  String.mk (((s.data.dropWhile Char.isWhitespace).reverse.dropWhile Char.isWhitespace).reverse)

/-- Replacement text for one maximal run of `n` newline characters under
`re.sub(r'\n\x7b3,\x7d', '\n\n', text)`: runs of three or more newlines
collapse to exactly two, shorter runs are kept unchanged. -/
def emitNewlines (n : Nat) : List Char :=
  if 3 ≤ n then ['\n', '\n'] else List.replicate n '\n'

/-- Scan the text, tracking the length of the current newline run in `pending`,
and collapse each maximal run via `emitNewlines`. -/
def collapseAux : List Char → Nat → List Char
  | [], pending => emitNewlines pending
  | c :: rest, pending =>
    if c = '\n' then collapseAux rest (pending + 1)
    else emitNewlines pending ++ (c :: collapseAux rest 0)

/-- rag_service.py lines 143-144: collapse runs of 3+ newlines to 2, then strip. -/
def normalizeText (s : String) : String :=
  pyStrip (String.mk (collapseAux s.data 0))

/-- Model of Python string slicing `s[:n]` (first `n` characters). -/
def pySlice (s : String) (n : Nat) : String :=
  String.mk (s.data.take n)

/-! ## URL helpers

`urllib.parse` is an external library; these model the parts the code uses,
for the well-formed http(s) URLs the crawler deals in. -/

/-- Model of `f"\x7bparsed.scheme\x7d://\x7bparsed.netloc\x7d"` after
`urlparse` (rag_service.py line 82): the scheme together with the authority
component, i.e. everything before the first `/` after `://`. -/
def urlOrigin (u : String) : String :=
  match pySplit u "://" with
  | scheme :: rest :: _ => scheme ++ "://" ++ ((pySplit rest "/").headD "")
  | _ => "://"

/-- The base URL up to and including its last `/` (directory part). -/
def urlDir (u : String) : String :=
  String.mk ((u.data.reverse.dropWhile (fun c => !(c == '/'))).reverse)

/-- Modelled from the spec: the Link Filter resolves `candidate_href` to an
absolute URL against `current_page_url`; the implementation delegates this to
the external library function `urllib.parse.urljoin`, which is not part of
this repository.  An absolute reference (one containing a scheme separator)
resolves to itself, a protocol-relative reference takes the base scheme, a
root-relative reference is resolved against the base origin, and any other
reference against the base URL's directory. -/
def urljoin (base rel : String) : String :=
  if rel = "" then base
  else if 2 ≤ (pySplit rel "://").length then rel
  else if pyStartsWith rel "//" then ((pySplit base "://").headD "") ++ ":" ++ rel
  else if pyStartsWith rel "/" then urlOrigin base ++ rel
  else urlDir base ++ rel

/-! ## Data model -/

/-- An ingestible unit (llama_index `Document` as the code populates it,
rag_service.py lines 152-159): text plus source / title / page-number
metadata. -/
structure Document where
  text : String
  source : String
  title : String
  page_number : Nat
  deriving Repr, DecidableEq

/-- One entry of the scraped-pages ledger (rag_service.py lines 163-168). -/
structure CrawlRecord where
  url : String
  title : String
  length : Nat
  page_number : Nat
  deriving Repr, DecidableEq

/-- The winning content region of a fetched page, as delivered by the external
HTML parser: the region's extracted raw text (`main_content.get_text` after
the unwanted subtrees are removed), the page title element's text if present
(`soup.title.string`), and the `href` values of the region's anchor tags. -/
structure PageContent where
  rawText : String
  soupTitle : Option String
  links : List String
  deriving Repr, DecidableEq

/-- Outcome of fetching and parsing one page, the crawler's network oracle:
`failure` models an exception raised inside the `try` block before the delay
statement (timeout, non-2xx via `raise_for_status`, network error);
`noContent` models a fetched page on which no content region is found
(all selectors fail and the fallback is rejected); `page` carries the
winning content region. -/
inductive FetchOutcome where
  | failure
  | noContent
  | page (c : PageContent)
  deriving Repr, DecidableEq

/-- The crawl loop's mutable state (rag_service.py lines 76-97): the output
document list, the visited set (as an insertion-ordered duplicate-free list),
the FIFO frontier `urls_to_visit`, the visit counter `page_count`, the
appended-to scraped-pages ledger, and two effect counters — the number of
politeness delays performed (`time.sleep(0.5)` executions, line 198) and the
number of visits that ended in the exception handler (line 200). -/
structure CrawlState where
  documents : List Document
  visited : List String
  frontier : List String
  pageCount : Nat
  ledger : List CrawlRecord
  sleeps : Nat
  failures : Nat
  deriving Repr, DecidableEq

/-! ## Content extractor (rag_service.py lines 140-159) -/

/-- Title computation (lines 148-150): the page title element's text if
present, else the URL's last path segment; the site branding suffix is
removed and the result stripped. -/
def mkTitle (soupTitle : Option String) (url : String) : String :=
  let t :=
    match soupTitle with
    | some t => t
    | none => (pySplit url "/").getLastD ""
  pyStrip (pyReplace t " | 🦜️🔗 LangChain" "")

/-- The extraction step applied to a found content region (lines 140-159):
normalize the region's text, and produce a `Document` exactly when the
normalized text is longer than 300 characters. -/
def extract (c : PageContent) (url : String) (pageNum : Nat) : Option Document :=
  let text := normalizeText c.rawText
  if 300 < text.length then
    some { text := text, source := url, title := mkTitle c.soupTitle url, page_number := pageNum }
  else
    none

/-! ## Link filter (rag_service.py lines 175-190) -/

/-- The per-link decision of lines 179-189 on a given (visited, frontier)
pair: skip fragment links and absolute links whose text does not start with
the base-domain string; resolve against the current page URL; enqueue exactly
when the resolved URL starts with the base-domain string, contains the
`/langgraph/` path marker, and is in neither the visited set nor the
frontier. -/
def shouldFollow (href url bd : String) (visited frontier : List String) : Bool :=
  if pyStartsWith href "#" || (pyStartsWith href "http" && !(pyStartsWith href bd)) then false
  else
    let full := urljoin url href
    pyStartsWith full bd && strContains full "/langgraph/" &&
      !(visited.contains full) && !(frontier.contains full)

/-- Fold the filter over a page's outbound links, appending each accepted
link's resolved URL at the tail of the frontier (lines 175-191); later links
are checked against the frontier as already grown by earlier ones. -/
def discoverLinks (url bd : String) (visited : List String) (frontier : List String)
    (links : List String) : List String :=
  links.foldl
    (fun fr href =>
      if shouldFollow href url bd visited fr then fr ++ [urljoin url href] else fr)
    frontier

/-! ## Crawler (rag_service.py lines 89-202) -/

/-- The run of consecutive loop iterations that pop already-visited URLs
(lines 90-94): return the first not-yet-visited URL together with the rest of
the frontier, or `none` when the frontier is exhausted by such pops. -/
def dropVisited (visited : List String) : List String → Option (String × List String)
  | [] => none
  | url :: rest =>
    if visited.contains url then dropVisited visited rest else some (url, rest)

/-- One visit of a fresh URL (lines 96-198): mark visited, count the page,
then branch on the fetch outcome.  A fetch failure jumps to the exception
handler (skipping the delay); a fetched page with no content region just
delays; a found region runs `extract`, and only a produced `Document` is
appended (with its ledger record) and — while the budget is not yet
exhausted — has its outbound links discovered; every non-failing visit ends
with the politeness delay. -/
def visitPage (fetch : String → FetchOutcome) (bd : String) (mp : Nat)
    (url : String) (rest : List String) (s : CrawlState) : CrawlState :=
  let s1 : CrawlState :=
    { s with frontier := rest, visited := s.visited ++ [url], pageCount := s.pageCount + 1 }
  match fetch url with
  | .failure => { s1 with failures := s1.failures + 1 }
  | .noContent => { s1 with sleeps := s1.sleeps + 1 }
  | .page c =>
    match extract c url s1.pageCount with
    | none => { s1 with sleeps := s1.sleeps + 1 }
    | some doc =>
      let s2 : CrawlState :=
        { s1 with
          documents := s1.documents ++ [doc],
          ledger := s1.ledger ++
            [{ url := url, title := doc.title, length := doc.text.length,
               page_number := doc.page_number }] }
      let s3 : CrawlState :=
        if s2.pageCount < mp then
          { s2 with frontier := discoverLinks url bd s2.visited s2.frontier c.links }
        else s2
      { s3 with sleeps := s3.sleeps + 1 }

/-- The crawl loop (line 89): while the frontier is non-empty and
`page_count < max_pages`, pop URLs (skipping visited ones) and visit the next
fresh one.  The `fuel` argument only makes the recursion structural; it is
initialized to `max_pages` and stays equal to `max_pages - pageCount`, so it
reaches `0` exactly when the guard `pageCount < max_pages` fails
(`crawlLoop_fuel_irrelevant` below makes this precise). -/
def crawlLoop (fetch : String → FetchOutcome) (bd : String) (mp : Nat) :
    Nat → CrawlState → CrawlState
  | 0, s => s
  | fuel + 1, s =>
    if s.pageCount < mp then
      match dropVisited s.visited s.frontier with
      | none => { s with frontier := [] }
      | some (url, rest) => crawlLoop fetch bd mp fuel (visitPage fetch bd mp url rest s)
    else s

/-- Initial crawl state (lines 76-87): empty outputs, the frontier seeded
with exactly the start URL. -/
def initialState (seed : String) : CrawlState :=
  { documents := [], visited := [], frontier := [seed], pageCount := 0,
    ledger := [], sleeps := 0, failures := 0 }

/-- `RAGService.scrape_langchain_docs` (lines 62-208): run the crawl loop
from the seeded state; the base domain is the seed URL's scheme and
authority. -/
def scrape_langchain_docs (fetch : String → FetchOutcome) (start_url : String)
    (max_pages : Nat) : CrawlState :=
  crawlLoop fetch (urlOrigin start_url) max_pages max_pages (initialState start_url)

/-! ## Service state and ingestion orchestrator (rag_service.py lines 210-272) -/

/-- The service's process-wide mutable state: whether `self.index` is set
(`true` iff it is not `None`) and the scraped-pages ledger
`self.scraped_pages`. -/
structure ServiceState where
  index : Bool
  scraped_pages : List CrawlRecord
  deriving Repr, DecidableEq

/-- The dictionary returned by `ingest_documents`: optional fields are absent
on the error shapes. -/
structure IngestResult where
  status : String
  message : String
  document_count : Option Nat
  pages_scraped : List CrawlRecord
  total_characters : Option Nat
  deriving Repr, DecidableEq

/-- Behaviour oracle for the external retrieval engine during ingestion:
whether the bulk `VectorStoreIndex.from_documents` call succeeds, and whether
the `i`-th incremental `self.index.insert` call succeeds. -/
structure EngineModel where
  buildOk : Bool
  insertOk : Nat → Bool

/-- Python truthiness of the optional `url` argument (`if url`). -/
def pyTruthyStr : Option String → Bool
  | none => false
  | some s => !(s == "")

/-- Python truthiness of the optional `documents` argument
(`not documents` is true for `None` and for the empty list). -/
def pyTruthyDocs : Option (List Document) → Bool
  | none => false
  | some l => !l.isEmpty

/-- `RAGService.ingest_documents` (lines 210-272): reset the ledger, scrape
when a URL is given and no documents are, fail when no documents result,
otherwise hand the documents to the retrieval engine — a bulk build when no
index exists yet, per-document inserts when one does.  An engine failure is
caught and turned into an error result carrying the current ledger. -/
def ingest_documents (fetch : String → FetchOutcome) (e : EngineModel) (s : ServiceState)
    (documents : Option (List Document)) (url : Option String) (max_pages : Nat) :
    IngestResult × ServiceState :=
  let s0 : ServiceState := { s with scraped_pages := [] }
  let scraped : Option (List Document) × ServiceState :=
    if pyTruthyStr url && !(pyTruthyDocs documents) then
      let r := scrape_langchain_docs fetch (url.getD "") max_pages
      (some r.documents, { s0 with scraped_pages := s0.scraped_pages ++ r.ledger })
    else (documents, s0)
  let s1 := scraped.2
  if !(pyTruthyDocs scraped.1) then
    ({ status := "error", message := "No documents provided or scraped",
       document_count := none, pages_scraped := [], total_characters := none }, s1)
  else
    let docs := scraped.1.getD []
    if s1.index then
      if (List.range docs.length).all e.insertOk then
        ({ status := "success",
           message := "Successfully ingested " ++ toString docs.length ++ " documents",
           document_count := some docs.length, pages_scraped := s1.scraped_pages,
           total_characters := some ((docs.map (fun d => d.text.length)).sum) }, s1)
      else
        ({ status := "error", message := "Error during ingestion",
           document_count := none, pages_scraped := s1.scraped_pages,
           total_characters := none }, s1)
    else
      if e.buildOk then
        ({ status := "success",
           message := "Successfully ingested " ++ toString docs.length ++ " documents",
           document_count := some docs.length, pages_scraped := s1.scraped_pages,
           total_characters := some ((docs.map (fun d => d.text.length)).sum) },
         { s1 with index := true })
      else
        ({ status := "error", message := "Error during ingestion",
           document_count := none, pages_scraped := s1.scraped_pages,
           total_characters := none }, s1)

/-- The ledger an `ingest_documents` call produces on its own: the crawl's
ledger when the call scrapes (a URL given, no documents given), and empty
otherwise. -/
def callLedger (fetch : String → FetchOutcome) (documents : Option (List Document))
    (url : Option String) (max_pages : Nat) : List CrawlRecord :=
  if pyTruthyStr url && !(pyTruthyDocs documents) then
    (scrape_langchain_docs fetch (url.getD "") max_pages).ledger
  else []

/-- The document list the engine phase of `ingest_documents` sees: the
crawl's output when the call scrapes, else the caller-supplied documents. -/
def docsAfterScrape (fetch : String → FetchOutcome) (documents : Option (List Document))
    (url : Option String) (max_pages : Nat) : Option (List Document) :=
  if pyTruthyStr url && !(pyTruthyDocs documents) then
    some (scrape_langchain_docs fetch (url.getD "") max_pages).documents
  else documents

/-- Whether the engine phase fails on the given documents: the bulk build
fails when no index exists, or some incremental insert fails when one does. -/
def engineFails (e : EngineModel) (hasIndex : Bool) (docs : List Document) : Bool :=
  if hasIndex then !((List.range docs.length).all e.insertOk) else !e.buildOk

/-! ## Query orchestrator (rag_service.py lines 274-329) -/

/-- A supporting passage as returned by the retrieval engine
(`response.source_nodes` entries): text, an optional similarity score, and
metadata key-value pairs. -/
structure SourceNode where
  text : String
  score : Option Int
  metadata : List (String × String)
  deriving Repr, DecidableEq

/-- One entry of the `sources` list in a query response. -/
structure SourceEntry where
  text : String
  score : Option Int
  metadata : List (String × String)
  deriving Repr, DecidableEq

/-- The dictionary returned by `RAGService.query`. -/
structure QueryResult where
  status : String
  answer : String
  sources : List SourceEntry
  deriving Repr, DecidableEq

/-- Source-entry construction (lines 308-312): the node text truncated to its
first 300 characters plus an ellipsis marker when longer than 300 characters,
else unchanged; score and metadata carried over. -/
def mkSource (node : SourceNode) : SourceEntry :=
  { text := if 300 < node.text.length then pySlice node.text 300 ++ "..." else node.text,
    score := node.score, metadata := node.metadata }

/-- `RAGService.query` (lines 274-329), with the retrieval-plus-generation
engine as oracles: when no index exists, return the error-shaped result with
empty sources; otherwise ask the engine for supporting passages and build the
success result.  The second component records whether the engine was
invoked. -/
def queryRAG (engine : String → Nat → List SourceNode)
    (gen : String → List SourceNode → String) (s : ServiceState)
    (question : String) (top_k : Nat) : QueryResult × Bool :=
  if !s.index then
    ({ status := "error",
       answer := "No documents have been ingested yet. Please ingest documents first.",
       sources := [] }, false)
  else
    let nodes := engine question top_k
    ({ status := "success", answer := gen question nodes,
       sources := nodes.map mkSource }, true)

/-! ## Concrete fixtures used by the closed theorems -/

/-- A 301-character text, just above the minimum-content threshold. -/
def longText : String := String.mk (List.replicate 301 'a')

def seedUrl : String := "https://d.example/langgraph/a"

def linkUrl : String := "https://d.example/langgraph/b"

/-- A seed URL that does not contain the `/langgraph/` path marker. -/
def plainSeed : String := "https://d.example/other/start"

/-- Oracle: every page has a content region with 301 characters of text and
no links. -/
def fetchLong : String → FetchOutcome := fun _ =>
  .page { rawText := longText, soupTitle := some "T", links := [] }

/-- Oracle: the seed page's content region holds 10 characters of text and
one in-scope link; every other page is long and linkless. -/
def fetchShortSeed : String → FetchOutcome := fun u =>
  if u = seedUrl then
    .page { rawText := "short text", soupTitle := some "A", links := [linkUrl] }
  else
    .page { rawText := longText, soupTitle := some "B", links := [] }

/-- Oracle: every fetch raises. -/
def fetchFail : String → FetchOutcome := fun _ => .failure

def pageC3 : String := "https://docs.langchain.com/langgraph/x"

/-- A link on a foreign origin whose URL string extends the base-domain
string. -/
def hrefC3 : String := "https://docs.langchain.com.evil.example/langgraph/y"

def baseC3 : String := "https://docs.langchain.com"

def nodeLong : SourceNode :=
  { text := longText, score := some 1, metadata := [("source", "u")] }

def nodeShort : SourceNode := { text := "short", score := none, metadata := [] }

/-- Engine oracle returning two passages for any question. -/
def engineTwo : String → Nat → List SourceNode := fun _ _ => [nodeLong, nodeShort]

/-- Generation oracle returning a fixed answer. -/
def genConst : String → List SourceNode → String := fun _ _ => "answer"

/-- Engine behaviour whose bulk index build fails. -/
def engineBuildFail : EngineModel := { buildOk := false, insertOk := fun _ => true }

def freshService : ServiceState := { index := false, scraped_pages := [] }

def readyService : ServiceState := { index := true, scraped_pages := [] }

/-! ## Basic lemmas about the extractor and a single page visit -/

theorem extract_isSome (c : PageContent) (url : String) (n : Nat) :
    (extract c url n).isSome = true ↔ 300 < (normalizeText c.rawText).length := by
  unfold extract
  by_cases h : 300 < (normalizeText c.rawText).length <;> simp [h]

theorem extract_eq_some {c : PageContent} {url : String} {n : Nat} {d : Document}
    (h : extract c url n = some d) :
    d.text = normalizeText c.rawText ∧ 300 < d.text.length ∧ d.page_number = n := by
  unfold extract at h
  by_cases hl : 300 < (normalizeText c.rawText).length
  · simp only [hl, if_pos] at h
    cases h
    exact ⟨rfl, hl, rfl⟩
  · simp [hl] at h

theorem extract_eq_none {c : PageContent} {url : String} {n : Nat}
    (h : (normalizeText c.rawText).length ≤ 300) : extract c url n = none := by
  unfold extract
  simp [Nat.not_lt.mpr h]

theorem dropVisited_fresh {visited : List String} :
    ∀ {l : List String} {u : String} {r : List String},
      dropVisited visited l = some (u, r) → visited.contains u = false := by
  intro l
  induction l with
  | nil => intro u r h; simp [dropVisited] at h
  | cons a t ih =>
    intro u r h
    by_cases hc : visited.contains a
    · rw [dropVisited, if_pos hc] at h
      exact ih h
    · rw [dropVisited, if_neg hc] at h
      cases h
      exact Bool.of_not_eq_true hc

theorem visitPage_visited (fetch : String → FetchOutcome) (bd : String) (mp : Nat)
    (url : String) (rest : List String) (s : CrawlState) :
    (visitPage fetch bd mp url rest s).visited = s.visited ++ [url] := by
  unfold visitPage
  dsimp only
  split
  · rfl
  · rfl
  · split
    · rfl
    · split <;> rfl

theorem visitPage_pageCount (fetch : String → FetchOutcome) (bd : String) (mp : Nat)
    (url : String) (rest : List String) (s : CrawlState) :
    (visitPage fetch bd mp url rest s).pageCount = s.pageCount + 1 := by
  unfold visitPage
  dsimp only
  split
  · rfl
  · rfl
  · split
    · rfl
    · split <;> rfl

/-! ## The crawl-loop invariant -/

/-- Invariant of the crawl loop, covering the visited-set/budget accounting,
uniqueness of ledger URLs and page numbers, the minimum-content threshold of
everything emitted, and the delay/failure effect accounting.  The frontier is
deliberately unconstrained. -/
structure CrawlInv (mp : Nat) (s : CrawlState) : Prop where
  nodupVisited : s.visited.Nodup
  countEq : s.visited.length = s.pageCount
  countLe : s.pageCount ≤ mp
  ledgerUrls : ∀ r ∈ s.ledger, r.url ∈ s.visited
  ledgerUrlsNodup : (s.ledger.map CrawlRecord.url).Nodup
  ledgerPageLe : ∀ r ∈ s.ledger, r.page_number ≤ s.pageCount
  ledgerPagesNodup : (s.ledger.map CrawlRecord.page_number).Nodup
  docsLong : ∀ d ∈ s.documents, 300 < d.text.length
  ledgerLong : ∀ r ∈ s.ledger, 300 < r.length
  effects : s.sleeps + s.failures = s.pageCount

theorem crawlInv_visit_nodoc (mp : Nat) (s : CrawlState) (url : String)
    (fr : List String) (sl fl : Nat)
    (hfresh : s.visited.contains url = false) (hlt : s.pageCount < mp)
    (heff : sl + fl = s.sleeps + s.failures + 1) (hinv : CrawlInv mp s) :
    CrawlInv mp
      { documents := s.documents, visited := s.visited ++ [url], frontier := fr,
        pageCount := s.pageCount + 1, ledger := s.ledger, sleeps := sl, failures := fl } := by
  have hno : url ∉ s.visited := by simpa using hfresh
  constructor
  · simp only [List.nodup_append, List.nodup_singleton, List.disjoint_singleton]
    exact ⟨hinv.nodupVisited, by simp, hno⟩
  · simp [hinv.countEq]
  · show s.pageCount + 1 ≤ mp
    omega
  · exact fun r hr => List.mem_append_left _ (hinv.ledgerUrls r hr)
  · exact hinv.ledgerUrlsNodup
  · exact fun r hr => Nat.le_succ_of_le (hinv.ledgerPageLe r hr)
  · exact hinv.ledgerPagesNodup
  · exact hinv.docsLong
  · exact hinv.ledgerLong
  · show sl + fl = s.pageCount + 1
    have := hinv.effects
    omega

theorem crawlInv_visit_doc (mp : Nat) (s : CrawlState) (url : String) (doc : Document)
    (fr : List String)
    (hfresh : s.visited.contains url = false) (hlt : s.pageCount < mp)
    (hdoclen : 300 < doc.text.length) (hdocpn : doc.page_number = s.pageCount + 1)
    (hinv : CrawlInv mp s) :
    CrawlInv mp
      { documents := s.documents ++ [doc], visited := s.visited ++ [url], frontier := fr,
        pageCount := s.pageCount + 1,
        ledger := s.ledger ++
          [{ url := url, title := doc.title, length := doc.text.length,
             page_number := doc.page_number }],
        sleeps := s.sleeps + 1, failures := s.failures } := by
  have hno : url ∉ s.visited := by simpa using hfresh
  constructor
  · simp only [List.nodup_append, List.nodup_singleton, List.disjoint_singleton]
    exact ⟨hinv.nodupVisited, by simp, hno⟩
  · simp [hinv.countEq]
  · show s.pageCount + 1 ≤ mp
    omega
  · intro r hr
    rcases List.mem_append.mp hr with hold | hnew
    · exact List.mem_append_left _ (hinv.ledgerUrls r hold)
    · simp only [List.mem_singleton] at hnew
      subst hnew
      exact List.mem_append_right _ (by simp)
  · have hnotin : url ∉ s.ledger.map CrawlRecord.url := by
      intro hmem
      rcases List.mem_map.mp hmem with ⟨r, hr, hr2⟩
      exact hno (hr2 ▸ hinv.ledgerUrls r hr)
    simp only [List.map_append, List.map_cons, List.map_nil]
    simp only [List.nodup_append, List.nodup_singleton, List.disjoint_singleton]
    exact ⟨hinv.ledgerUrlsNodup, by simp, hnotin⟩
  · intro r hr
    rcases List.mem_append.mp hr with hold | hnew
    · exact Nat.le_succ_of_le (hinv.ledgerPageLe r hold)
    · simp only [List.mem_singleton] at hnew
      subst hnew
      simp [hdocpn]
  · have hnotin : doc.page_number ∉ s.ledger.map CrawlRecord.page_number := by
      intro hmem
      rcases List.mem_map.mp hmem with ⟨r, hr, hr2⟩
      have := hinv.ledgerPageLe r hr
      omega
    simp only [List.map_append, List.map_cons, List.map_nil]
    simp only [List.nodup_append, List.nodup_singleton, List.disjoint_singleton]
    exact ⟨hinv.ledgerPagesNodup, by simp, hnotin⟩
  · intro d hd
    rcases List.mem_append.mp hd with hold | hnew
    · exact hinv.docsLong d hold
    · simp only [List.mem_singleton] at hnew
      subst hnew
      exact hdoclen
  · intro r hr
    rcases List.mem_append.mp hr with hold | hnew
    · exact hinv.ledgerLong r hold
    · simp only [List.mem_singleton] at hnew
      subst hnew
      exact hdoclen
  · show s.sleeps + 1 + s.failures = s.pageCount + 1
    have := hinv.effects
    omega

theorem visitPage_inv (fetch : String → FetchOutcome) (bd : String) (mp : Nat)
    (url : String) (rest : List String) (s : CrawlState)
    (hfresh : s.visited.contains url = false) (hlt : s.pageCount < mp)
    (hinv : CrawlInv mp s) : CrawlInv mp (visitPage fetch bd mp url rest s) := by
  unfold visitPage
  dsimp only
  split
  · exact crawlInv_visit_nodoc mp s url rest s.sleeps (s.failures + 1) hfresh hlt (by omega) hinv
  · exact crawlInv_visit_nodoc mp s url rest (s.sleeps + 1) s.failures hfresh hlt (by omega) hinv
  · rename_i c
    split
    · exact crawlInv_visit_nodoc mp s url rest (s.sleeps + 1) s.failures hfresh hlt (by omega) hinv
    · rename_i doc heq
      obtain ⟨htext, hlen, hpn⟩ := extract_eq_some heq
      split
      · exact crawlInv_visit_doc mp s url doc _ hfresh hlt hlen hpn hinv
      · exact crawlInv_visit_doc mp s url doc _ hfresh hlt hlen hpn hinv

theorem crawlLoop_inv (fetch : String → FetchOutcome) (bd : String) (mp : Nat) :
    ∀ (fuel : Nat) (s : CrawlState), CrawlInv mp s → CrawlInv mp (crawlLoop fetch bd mp fuel s) := by
  intro fuel
  induction fuel with
  | zero => exact fun s h => h
  | succ n ih =>
    intro s h
    rw [crawlLoop]
    by_cases hlt : s.pageCount < mp
    · rw [if_pos hlt]
      cases hd : dropVisited s.visited s.frontier with
      | none =>
        exact ⟨h.nodupVisited, h.countEq, h.countLe, h.ledgerUrls, h.ledgerUrlsNodup,
               h.ledgerPageLe, h.ledgerPagesNodup, h.docsLong, h.ledgerLong, h.effects⟩
      | some ur =>
        obtain ⟨url, rest⟩ := ur
        exact ih _ (visitPage_inv fetch bd mp url rest s (dropVisited_fresh hd) hlt h)
    · rw [if_neg hlt]
      exact h

theorem initial_inv (mp : Nat) (seed : String) : CrawlInv mp (initialState seed) := by
  constructor <;> simp [initialState]

theorem scrape_inv (fetch : String → FetchOutcome) (start_url : String) (max_pages : Nat) :
    CrawlInv max_pages (scrape_langchain_docs fetch start_url max_pages) :=
  crawlLoop_inv fetch (urlOrigin start_url) max_pages max_pages (initialState start_url)
    (initial_inv max_pages start_url)

/-! ## Monotonicity of the crawl loop -/

theorem crawlLoop_visited_mono (fetch : String → FetchOutcome) (bd : String) (mp : Nat) :
    ∀ (fuel : Nat) (s : CrawlState) (u : String),
      u ∈ s.visited → u ∈ (crawlLoop fetch bd mp fuel s).visited := by
  intro fuel
  induction fuel with
  | zero => exact fun s u h => h
  | succ n ih =>
    intro s u h
    rw [crawlLoop]
    by_cases hlt : s.pageCount < mp
    · rw [if_pos hlt]
      cases hd : dropVisited s.visited s.frontier with
      | none => exact h
      | some ur =>
        obtain ⟨url, rest⟩ := ur
        refine ih _ u ?_
        rw [visitPage_visited]
        exact List.mem_append_left _ h
    · rw [if_neg hlt]
      exact h

theorem crawlLoop_pageCount_mono (fetch : String → FetchOutcome) (bd : String) (mp : Nat) :
    ∀ (fuel : Nat) (s : CrawlState), s.pageCount ≤ (crawlLoop fetch bd mp fuel s).pageCount := by
  intro fuel
  induction fuel with
  | zero => exact fun s => Nat.le_refl _
  | succ n ih =>
    intro s
    rw [crawlLoop]
    by_cases hlt : s.pageCount < mp
    · rw [if_pos hlt]
      cases hd : dropVisited s.visited s.frontier with
      | none => exact Nat.le_refl _
      | some ur =>
        obtain ⟨url, rest⟩ := ur
        have h1 := ih (visitPage fetch bd mp url rest s)
        rw [visitPage_pageCount] at h1
        show s.pageCount ≤ (crawlLoop fetch bd mp n (visitPage fetch bd mp url rest s)).pageCount
        omega
    · rw [if_neg hlt]

/-! ## Lemmas about the ingestion and query orchestrators -/

/-- The service ledger after any `ingest_documents` call is exactly the
ledger this call's own (possible) crawl produced, whatever ledger the prior
state held. -/
theorem ingest_state_ledger (fetch : String → FetchOutcome) (e : EngineModel)
    (s : ServiceState) (d : Option (List Document)) (u : Option String) (m : Nat) :
    (ingest_documents fetch e s d u m).2.scraped_pages = callLedger fetch d u m := by
  unfold ingest_documents callLedger
  by_cases hc : (pyTruthyStr u && !(pyTruthyDocs d)) = true
  · simp only [hc, if_true]
    split
    · rfl
    · split
      · split <;> rfl
      · split <;> rfl
  · simp only [Bool.not_eq_true] at hc
    simp only [hc, Bool.false_eq_true, if_false]
    split
    · rfl
    · split
      · split <;> rfl
      · split <;> rfl

/-- The result ledger `pages_scraped` of any `ingest_documents` call that
reaches the engine phase is also exactly this call's own crawl ledger. -/
theorem ingest_result_ledger (fetch : String → FetchOutcome) (e : EngineModel)
    (s : ServiceState) (d : Option (List Document)) (u : Option String) (m : Nat)
    (hdocs : pyTruthyDocs (docsAfterScrape fetch d u m) = true) :
    (ingest_documents fetch e s d u m).1.pages_scraped = callLedger fetch d u m := by
  unfold ingest_documents callLedger
  unfold docsAfterScrape at hdocs
  by_cases hc : (pyTruthyStr u && !(pyTruthyDocs d)) = true
  · simp only [hc, if_true] at hdocs ⊢
    rw [if_neg (by simp [hdocs])]
    split
    · split <;> rfl
    · split <;> rfl
  · simp only [Bool.not_eq_true] at hc
    simp only [hc, Bool.false_eq_true, if_false] at hdocs ⊢
    rw [if_neg (by simp [hdocs])]
    split
    · split <;> rfl
    · split <;> rfl

/-- Any `ingest_documents` call whose engine phase fails returns the
error-shaped result. -/
theorem ingest_engine_error_status (fetch : String → FetchOutcome) (e : EngineModel)
    (s : ServiceState) (d : Option (List Document)) (u : Option String) (m : Nat)
    (hdocs : pyTruthyDocs (docsAfterScrape fetch d u m) = true)
    (hfail : engineFails e s.index ((docsAfterScrape fetch d u m).getD []) = true) :
    (ingest_documents fetch e s d u m).1.status = "error" := by
  unfold ingest_documents
  unfold docsAfterScrape at hdocs hfail
  unfold engineFails at hfail
  by_cases hc : (pyTruthyStr u && !(pyTruthyDocs d)) = true
  · simp only [hc, if_true] at hdocs hfail ⊢
    rw [if_neg (by simp [hdocs])]
    by_cases hidx : s.index = true
    · simp only [hidx, if_true] at hfail ⊢
      rw [if_neg (by simp_all)]
    · simp only [Bool.not_eq_true] at hidx
      simp only [hidx, Bool.false_eq_true, if_false] at hfail ⊢
      rw [if_neg (by simp_all)]
  · simp only [Bool.not_eq_true] at hc
    simp only [hc, Bool.false_eq_true, if_false] at hdocs hfail ⊢
    rw [if_neg (by simp [hdocs])]
    by_cases hidx : s.index = true
    · simp only [hidx, if_true] at hfail ⊢
      rw [if_neg (by simp_all)]
    · simp only [Bool.not_eq_true] at hidx
      simp only [hidx, Bool.false_eq_true, if_false] at hfail ⊢
      rw [if_neg (by simp_all)]

theorem mkSource_short {node : SourceNode} (h : node.text.length ≤ 300) :
    (mkSource node).text = node.text := by
  unfold mkSource
  simp [Nat.not_lt.mpr h]

theorem mkSource_long {node : SourceNode} (h : 300 < node.text.length) :
    (mkSource node).text = pySlice node.text 300 ++ "..." := by
  unfold mkSource
  simp [h]

theorem mkSource_len (node : SourceNode) : (mkSource node).text.length ≤ 303 := by
  unfold mkSource
  by_cases h : 300 < node.text.length
  · simp only [h, if_true]
    have h1 : (pySlice node.text 300).length = 300 := by
      unfold pySlice
      show (node.text.data.take 300).length = 300
      rw [List.length_take]
      exact Nat.min_eq_left (Nat.le_of_lt (by exact h))
    have h2 : (pySlice node.text 300 ++ "...").length
        = (pySlice node.text 300).length + ("..." : String).length := by
      exact String.length_append _ _
    have h3 : ("..." : String).length = 3 := rfl
    omega
  · simp only [h, if_false]
    omega

/-! ## Claim theorems -/

/-- C1: for every fetched page, extraction produces a `Document` exactly when
the winning content region's normalized text is strictly longer than 300
characters; and in every crawl, neither the output document list nor the
scraped-pages ledger ever receives an entry whose text length is 300 or
less. -/
theorem extraction_threshold :
    (∀ (c : PageContent) (url : String) (n : Nat),
        (extract c url n).isSome = true ↔ 300 < (normalizeText c.rawText).length) ∧
    (∀ (fetch : String → FetchOutcome) (seed : String) (mp : Nat),
        (∀ d ∈ (scrape_langchain_docs fetch seed mp).documents, 300 < d.text.length) ∧
        (∀ r ∈ (scrape_langchain_docs fetch seed mp).ledger, 300 < r.length)) := by
  refine ⟨extract_isSome, fun fetch seed mp => ⟨?_, ?_⟩⟩
  · exact (scrape_inv fetch seed mp).docsLong
  · exact (scrape_inv fetch seed mp).ledgerLong

/-- Witness for C1, at a concrete content region and a concrete crawl whose
single document the second part is applied to. -/
theorem extraction_threshold_witness :
    ((extract { rawText := longText, soupTitle := some "T", links := [] } seedUrl 1).isSome = true
        ↔ 300 < (normalizeText longText).length) ∧
    300 <
      ({ text := longText, source := seedUrl, title := "T", page_number := 1 } :
        Document).text.length :=
  ⟨extraction_threshold.1 _ seedUrl 1,
   (extraction_threshold.2 fetchLong seedUrl 1).1 _ (by decide)⟩

/-- C2 counterexample: on a crawl whose seed page has a found content region
with 10 characters of text and one in-scope outbound link, that link passes
every filter check against the post-visit crawl state, yet the crawl ends
with only the seed visited, an empty frontier and no documents — the short
page's links were never discovered, contradicting the claim that they are
discovered and run through the filter. -/
theorem short_page_links_dropped_cex :
    shouldFollow linkUrl seedUrl (urlOrigin seedUrl) [seedUrl] [] = true ∧
    (scrape_langchain_docs fetchShortSeed seedUrl 2).visited = [seedUrl] ∧
    (scrape_langchain_docs fetchShortSeed seedUrl 2).frontier = [] ∧
    (scrape_langchain_docs fetchShortSeed seedUrl 2).documents = [] :=
  ⟨by decide, by decide, by decide, by decide⟩

/-- C2 (amended): a visited page whose content region is found but whose
normalized text is at most 300 characters is still counted against
`max_pages`, but its outbound links are NOT discovered: such a visit leaves
the document list, ledger and the rest of the frontier unchanged, marks the
page visited, counts it, and performs the politeness delay. -/
theorem short_page_counted_no_links (fetch : String → FetchOutcome) (bd : String) (mp : Nat)
    (url : String) (rest : List String) (s : CrawlState) (c : PageContent)
    (hf : fetch url = .page c)
    (hshort : (normalizeText c.rawText).length ≤ 300) :
    visitPage fetch bd mp url rest s =
      { s with frontier := rest, visited := s.visited ++ [url],
               pageCount := s.pageCount + 1, sleeps := s.sleeps + 1 } := by
  unfold visitPage
  rw [hf]
  dsimp only
  rw [extract_eq_none hshort]

/-- Witness for C2's amended theorem at the concrete short seed page. -/
theorem short_page_counted_no_links_witness :
    (fetchShortSeed seedUrl =
        FetchOutcome.page { rawText := "short text", soupTitle := some "A", links := [linkUrl] } ∧
      (normalizeText "short text").length ≤ 300) ∧
    visitPage fetchShortSeed (urlOrigin seedUrl) 2 seedUrl [] (initialState seedUrl) =
      { initialState seedUrl with
          frontier := [], visited := [seedUrl], pageCount := 1, sleeps := 1 } :=
  ⟨⟨by decide, by decide⟩,
   short_page_counted_no_links fetchShortSeed (urlOrigin seedUrl) 2 seedUrl []
     (initialState seedUrl)
     { rawText := "short text", soupTitle := some "A", links := [linkUrl] }
     (by decide) (by decide)⟩

/-- C3: the link filter's origin check is a string-prefix comparison of the
resolved URL against the base-domain string, not an origin comparison.
Evaluated at the failing input: `hrefC3` resolves to a URL whose origin
differs from the base domain, yet `shouldFollow` accepts it. -/
theorem same_origin_prefix_accepts_foreign_origin :
    urlOrigin (urljoin pageC3 hrefC3) ≠ baseC3 ∧
    shouldFollow hrefC3 pageC3 baseC3 [] [] = true :=
  ⟨by decide, by decide⟩

/-- C4: for every crawl with `max_pages ≥ 1`, at loop exit the visited set
holds at most `max_pages` URLs, the ledger's URLs are pairwise distinct, and
no page number is assigned to two different ledger entries. -/
theorem crawl_budget_and_ledger_unique (fetch : String → FetchOutcome) (seed : String)
    (mp : Nat) (_hmp : 1 ≤ mp) :
    (scrape_langchain_docs fetch seed mp).visited.length ≤ mp ∧
    ((scrape_langchain_docs fetch seed mp).ledger.map CrawlRecord.url).Nodup ∧
    ((scrape_langchain_docs fetch seed mp).ledger.map CrawlRecord.page_number).Nodup := by
  have h := scrape_inv fetch seed mp
  refine ⟨?_, h.ledgerUrlsNodup, h.ledgerPagesNodup⟩
  rw [h.countEq]
  exact h.countLe

/-- Witness for C4 at a concrete one-page crawl. -/
theorem crawl_budget_and_ledger_unique_witness :
    1 ≤ 1 ∧
    ((scrape_langchain_docs fetchLong seedUrl 1).visited.length ≤ 1 ∧
     ((scrape_langchain_docs fetchLong seedUrl 1).ledger.map CrawlRecord.url).Nodup ∧
     ((scrape_langchain_docs fetchLong seedUrl 1).ledger.map CrawlRecord.page_number).Nodup) :=
  ⟨by decide, crawl_budget_and_ledger_unique fetchLong seedUrl 1 (by decide)⟩

/-- C5 counterexample: with an oracle whose only fetch raises, the crawl
visits one page yet performs zero politeness delays — the delay statement
sits inside the `try` block after the fetch, so a fetch failure skips it,
contradicting "applied after the fetch regardless of the visit's
outcome". -/
theorem delay_skipped_on_fetch_failure_cex :
    (scrape_langchain_docs fetchFail seedUrl 1).pageCount = 1 ∧
    (scrape_langchain_docs fetchFail seedUrl 1).sleeps = 0 :=
  ⟨by decide, by decide⟩

/-- C5 (amended): the politeness delay is applied after every visit that does
not end in the exception handler — on successful extraction, too-short
content and no content region alike — and skipped exactly on fetch failures:
for every crawl, delays performed plus failing visits equal pages visited. -/
theorem delay_after_non_failing_fetch (fetch : String → FetchOutcome) (seed : String)
    (mp : Nat) :
    (scrape_langchain_docs fetch seed mp).sleeps
        + (scrape_langchain_docs fetch seed mp).failures
      = (scrape_langchain_docs fetch seed mp).pageCount :=
  (scrape_inv fetch seed mp).effects

/-- C6: the scraped-pages ledger is reset unconditionally at the start of
every ingest call, before any crawling or engine interaction: after two
sequential `ingest_documents` calls the service ledger is exactly the ledger
produced by the second call's own crawl (empty when the second call does not
scrape), for every prior state and every first call. -/
theorem ingest_ledger_reset_no_mixing (fetch1 fetch2 : String → FetchOutcome)
    (e1 e2 : EngineModel) (s : ServiceState)
    (d1 d2 : Option (List Document)) (u1 u2 : Option String) (m1 m2 : Nat) :
    (ingest_documents fetch2 e2 (ingest_documents fetch1 e1 s d1 u1 m1).2
        d2 u2 m2).2.scraped_pages
      = callLedger fetch2 d2 u2 m2 :=
  ingest_state_ledger fetch2 e2 _ d2 u2 m2

/-- C7: querying while no retrieval index exists returns the error-shaped
result with empty sources and the engine is never invoked; `queryRAG` is a
total Lean function, so no exception can escape to the caller. -/
theorem query_no_index_fails_fast (engine : String → Nat → List SourceNode)
    (gen : String → List SourceNode → String) (s : ServiceState)
    (question : String) (top_k : Nat) (h : s.index = false) :
    (queryRAG engine gen s question top_k).1.status = "error" ∧
    (queryRAG engine gen s question top_k).1.sources = [] ∧
    (queryRAG engine gen s question top_k).2 = false := by
  unfold queryRAG
  simp [h]

/-- Witness for C7 on the fresh service state. -/
theorem query_no_index_fails_fast_witness :
    freshService.index = false ∧
    ((queryRAG engineTwo genConst freshService "q" 3).1.status = "error" ∧
     (queryRAG engineTwo genConst freshService "q" 3).1.sources = [] ∧
     (queryRAG engineTwo genConst freshService "q" 3).2 = false) :=
  ⟨rfl, query_no_index_fails_fast engineTwo genConst freshService "q" 3 rfl⟩

/-- C8: against a populated index, with the engine honouring its contract of
returning at most `top_k` passages, the query's source list has at most
`top_k` entries; each entry's text is the passage text unchanged when that
text is at most 300 characters and its first 300 characters followed by the
ellipsis marker otherwise, so every source text is at most 303 characters
long. -/
theorem query_sources_bounded_truncated (engine : String → Nat → List SourceNode)
    (gen : String → List SourceNode → String) (s : ServiceState)
    (question : String) (top_k : Nat)
    (hidx : s.index = true) (hk : (engine question top_k).length ≤ top_k) :
    (queryRAG engine gen s question top_k).1.sources.length ≤ top_k ∧
    (queryRAG engine gen s question top_k).1.sources
        = (engine question top_k).map mkSource ∧
    (∀ node ∈ engine question top_k,
        (node.text.length ≤ 300 → (mkSource node).text = node.text) ∧
        (300 < node.text.length →
          (mkSource node).text = pySlice node.text 300 ++ "...")) ∧
    (∀ src ∈ (queryRAG engine gen s question top_k).1.sources, src.text.length ≤ 303) := by
  have hs : (queryRAG engine gen s question top_k).1.sources
      = (engine question top_k).map mkSource := by
    unfold queryRAG
    simp [hidx]
  refine ⟨?_, hs, ?_, ?_⟩
  · rw [hs, List.length_map]
    exact hk
  · exact fun node _ => ⟨fun h => mkSource_short h, fun h => mkSource_long h⟩
  · rw [hs]
    intro src hsrc
    rcases List.mem_map.mp hsrc with ⟨node, _, rfl⟩
    exact mkSource_len node

/-- Witness for C8 on a concrete engine returning one long and one short
passage. -/
theorem query_sources_bounded_truncated_witness :
    (readyService.index = true ∧ (engineTwo "q" 3).length ≤ 3) ∧
    ((queryRAG engineTwo genConst readyService "q" 3).1.sources.length ≤ 3 ∧
     (queryRAG engineTwo genConst readyService "q" 3).1.sources
         = (engineTwo "q" 3).map mkSource ∧
     (∀ node ∈ engineTwo "q" 3,
         (node.text.length ≤ 300 → (mkSource node).text = node.text) ∧
         (300 < node.text.length →
           (mkSource node).text = pySlice node.text 300 ++ "...")) ∧
     (∀ src ∈ (queryRAG engineTwo genConst readyService "q" 3).1.sources,
         src.text.length ≤ 303)) :=
  ⟨⟨rfl, by decide⟩,
   query_sources_bounded_truncated engineTwo genConst readyService "q" 3 rfl (by decide)⟩

/-- C9: when the retrieval engine fails while an ingest call's documents are
being indexed, the call returns the error-shaped result whose
`pages_scraped` field carries exactly the ledger entries appended before the
failing step — the full ledger of this call's crawl, since every ledger
append precedes the engine phase. -/
theorem ingest_engine_failure_partial_ledger (fetch : String → FetchOutcome)
    (e : EngineModel) (s : ServiceState) (d : Option (List Document))
    (u : Option String) (m : Nat)
    (hdocs : pyTruthyDocs (docsAfterScrape fetch d u m) = true)
    (hfail : engineFails e s.index ((docsAfterScrape fetch d u m).getD []) = true) :
    (ingest_documents fetch e s d u m).1.status = "error" ∧
    (ingest_documents fetch e s d u m).1.pages_scraped = callLedger fetch d u m :=
  ⟨ingest_engine_error_status fetch e s d u m hdocs hfail,
   ingest_result_ledger fetch e s d u m hdocs⟩

/-- Witness for C9: a one-page crawl followed by a failing bulk index
build. -/
theorem ingest_engine_failure_partial_ledger_witness :
    (pyTruthyDocs (docsAfterScrape fetchLong none (some seedUrl) 1) = true ∧
     engineFails engineBuildFail freshService.index
        ((docsAfterScrape fetchLong none (some seedUrl) 1).getD []) = true) ∧
    ((ingest_documents fetchLong engineBuildFail freshService none
        (some seedUrl) 1).1.status = "error" ∧
     (ingest_documents fetchLong engineBuildFail freshService none
        (some seedUrl) 1).1.pages_scraped = callLedger fetchLong none (some seedUrl) 1) :=
  ⟨⟨by decide, by decide⟩,
   ingest_engine_failure_partial_ledger fetchLong engineBuildFail freshService none
     (some seedUrl) 1 (by decide) (by decide)⟩

/-- C10: the seed URL is dequeued, fetched and counted without passing
through the link filter: for every oracle and every crawl budget of at least
one page the seed enters the visited set and is counted, with no assumption
that the seed matches the path marker or any other filter check — those
constrain only links discovered on pages. -/
theorem seed_bypasses_link_filter (fetch : String → FetchOutcome) (seed : String) (mp : Nat)
    (hmp : 1 ≤ mp) :
    seed ∈ (scrape_langchain_docs fetch seed mp).visited ∧
    1 ≤ (scrape_langchain_docs fetch seed mp).pageCount := by
  obtain ⟨m, rfl⟩ : ∃ m, mp = m + 1 := ⟨mp - 1, by omega⟩
  unfold scrape_langchain_docs
  rw [crawlLoop]
  rw [if_pos (by simp [initialState] : (initialState seed).pageCount < m + 1)]
  have hd : dropVisited (initialState seed).visited (initialState seed).frontier
      = some (seed, []) := by
    simp [initialState, dropVisited]
  rw [hd]
  constructor
  · apply crawlLoop_visited_mono
    rw [visitPage_visited]
    simp
  · have h1 := crawlLoop_pageCount_mono fetch (urlOrigin seed) (m + 1) m
      (visitPage fetch (urlOrigin seed) (m + 1) seed [] (initialState seed))
    rw [visitPage_pageCount] at h1
    have h2 : (initialState seed).pageCount = 0 := rfl
    rw [h2] at h1
    show 1 ≤ (crawlLoop fetch (urlOrigin seed) (m + 1) m
      (visitPage fetch (urlOrigin seed) (m + 1) seed [] (initialState seed))).pageCount
    omega

/-- Witness for C10: a seed without the path marker is visited, counted, and
even yields a document. -/
theorem seed_bypasses_link_filter_witness :
    (1 ≤ 1 ∧ strContains plainSeed "/langgraph/" = false ∧
     (scrape_langchain_docs fetchLong plainSeed 1).documents.length = 1) ∧
    (plainSeed ∈ (scrape_langchain_docs fetchLong plainSeed 1).visited ∧
     1 ≤ (scrape_langchain_docs fetchLong plainSeed 1).pageCount) :=
  ⟨⟨by decide, by decide, by decide⟩,
   seed_bypasses_link_filter fetchLong plainSeed 1 (by decide)⟩

end RAG
